import Mathlib

/-!
Shallow embedding of the profile-construction core of the parca-agent
repository (pkg/profiler/profiler.go and the buildid package), together
with proofs about its drain-and-aggregate cycle, its BPF-map clearing
protocol and its build-ID reader.
-/

namespace Parca

/-- MAX_STACK_DEPTH of the in-kernel sampler (profiler.go:56). -/
def stackDepth : Nat := 127

/-- Twice the stack depth: length of the combined user+kernel stack
(profiler.go:57). -/
def doubleStackDepth : Nat := 254

/-- One decoded entry drained from the `counts` BPF map: the 12-byte key
`(pid: u32, user_sid: i32, kernel_sid: i32)` decoded in host byte order
(profiler.go:344-373) together with the `u64` count value fetched for it.
Counts are tallies of 100 Hz samples, far below 2^63, so they are
modelled as `Nat`. -/
structure CountTuple where
  pid : Nat
  userStackID : Int
  kernelStackID : Int
  count : Nat
deriving DecidableEq

/-- The environment a drain cycle reads from.  `stackTraces` is the
`stack_traces` BPF map (lookup by stack id, profiler.go:375/389); a stack
is the raw list of `u64` addresses stored in the map value. `normalize`
summarises the per-address mapping/object-file/ObjAddr chain of
profiler.go:447-469: the address finally stored on a fresh user location
(the raw address when any step fails).  `perfLookup` summarises the
perf-map JIT symbol lookup of profiler.go:477-489 (`none` when the pid
has no perf map or the address has no symbol). -/
structure Env where
  stackTraces : Int → Option (List Nat)
  normalize : Nat → Nat → Nat
  perfLookup : Nat → Nat → Option String

/-- A pprof location as built by profileLoop: `id` is assigned at
creation (profiler.go:419/471), `address` is the (normalized) address,
`pid` is the interning-key pid (0 for kernel locations), `isKernel`
records whether the mapping is the kernel sentinel, and `line` is the
single attached function name, if any. -/
structure Location where
  id : Nat
  address : Nat
  pid : Nat
  isKernel : Bool
  line : Option String
deriving DecidableEq

/-- A pprof sample under construction: `Value[0]` and the location list
(kept as indices into the cycle's `locations` vector, which is what the
Go pointers denote). -/
structure PSample where
  value : Int
  locIdxs : List Nat
deriving DecidableEq

/-- The cycle-local state of profileLoop's drain loop
(profiler.go:330-338 and the missing-stack counters). `droppedUser` and
`droppedKernel` count the increments of the `missing_stacks` counter
with type=user resp. type=kernel during this cycle. -/
structure LoopState where
  locations : List Location
  kernelLocations : List Nat
  kernelAddresses : List Nat
  locationIndices : List ((Nat × Nat) × Nat)
  userFunctions : List ((Nat × Nat) × String)
  samples : List (List Nat × PSample)
  droppedUser : Nat
  droppedKernel : Nat
deriving DecidableEq

/-- The empty state at the top of profileLoop (profiler.go:330-338). -/
def initState : LoopState :=
  { locations := [], kernelLocations := [], kernelAddresses := [],
    locationIndices := [], userFunctions := [], samples := [],
    droppedUser := 0, droppedKernel := 0 }

/-- First-occurrence association-list lookup, modelling Go map reads. -/
def lookupKey {K V : Type} [DecidableEq K] : List (K × V) → K → Option V
  | [], _ => none
  | (k', v) :: rest, k => if k' = k then some v else lookupKey rest k

/-- `sample.Value[0] += int64(value)` on the sample stored under `key`
(profiler.go:405).  Go map keys are unique; the model bumps the first
occurrence. -/
def bumpSample : List (List Nat × PSample) → List Nat → Nat → List (List Nat × PSample)
  | [], _, _ => []
  | (k', s) :: rest, k, c =>
    if k' = k then (k', { s with value := s.value + (c : Int) }) :: rest
    else (k', s) :: bumpSample rest k c

/-- Intern one kernel address (profiler.go:412-431, body of the kernel
loop for a nonzero address): key is `(0, addr)`; a fresh location gets
`id = len(locations)+1`, the kernel mapping, and is also recorded in
`kernelLocations` and `kernelAddresses`.  Returns the location index. -/
def internKernelLoc (st : LoopState) (addr : Nat) : LoopState × Nat :=
  match lookupKey st.locationIndices (0, addr) with
  | some i => (st, i)
  | none =>
    let i := st.locations.length
    ({ st with
        locations := st.locations ++ [⟨i + 1, addr, 0, true, none⟩],
        kernelLocations := st.kernelLocations ++ [addr],
        kernelAddresses :=
          if addr ∈ st.kernelAddresses then st.kernelAddresses
          else st.kernelAddresses ++ [addr],
        locationIndices := st.locationIndices ++ [((0, addr), i)] }, i)

/-- The kernel half of the sample-location loop (profiler.go:412-431):
walk the kernel slots, skip zero addresses, intern the rest, and return
the interned location indices in order. -/
def internKernelAddrs (st : LoopState) : List Nat → LoopState × List Nat
  | [] => (st, [])
  | a :: rest =>
    if a ≠ 0 then
      let p := internKernelLoc st a
      let q := internKernelAddrs p.1 rest
      (q.1, p.2 :: q.2)
    else internKernelAddrs st rest

/-- Intern one user address for `pid` (profiler.go:440-496, body of the
user loop for a nonzero address): key is `(pid, addr)`; a fresh location
gets `id = len(locations)+1` and the normalized address, and a JIT
function is interned and attached as the sole line when the perf map
resolves the address. -/
def internUserLoc (env : Env) (pid : Nat) (st : LoopState) (addr : Nat) :
    LoopState × Nat :=
  match lookupKey st.locationIndices (pid, addr) with
  | some i => (st, i)
  | none =>
    let i := st.locations.length
    let jit := env.perfLookup pid addr
    ({ st with
        locations :=
          st.locations ++ [⟨i + 1, env.normalize pid addr, pid, false, jit⟩],
        locationIndices := st.locationIndices ++ [((pid, addr), i)],
        userFunctions :=
          match jit with
          | some n => st.userFunctions ++ [((pid, addr), n)]
          | none => st.userFunctions }, i)

/-- The user half of the sample-location loop (profiler.go:440-496). -/
def internUserAddrs (env : Env) (pid : Nat) (st : LoopState) :
    List Nat → LoopState × List Nat
  | [] => (st, [])
  | a :: rest =>
    if a ≠ 0 then
      let p := internUserLoc env pid st a
      let q := internUserAddrs env pid p.1 rest
      (q.1, p.2 :: q.2)
    else internUserAddrs env pid st rest

/-- The tail of the loop body once both stack halves are in hand
(profiler.go:401-502): if a sample for the combined stack exists, add the
count to it; otherwise intern the kernel half first, then the user half,
and insert a fresh sample. -/
def finishSample (env : Env) (st : LoopState) (t : CountTuple)
    (user kernel : List Nat) : LoopState :=
  let stack := user ++ kernel
  match lookupKey st.samples stack with
  | some _ => { st with samples := bumpSample st.samples stack t.count }
  | none =>
    let p := internKernelAddrs st kernel
    let q := internUserAddrs env t.pid p.1 user
    { q.1 with
        samples := q.1.samples ++ [(stack, ⟨(t.count : Int), p.2 ++ q.2⟩)] }

/-- One iteration of the drain loop for a decoded tuple
(profiler.go:344-503).  A missing user stack increments the
`missing_stacks{type=user}` counter and skips the tuple (375-379); a
fetched stack shorter than 127 slots makes binary.Read fail and aborts
the cycle (383-386); a kernel stack is fetched only when
`kernel_sid >= 0`, with the analogous miss/short-read handling (388-399);
an absent kernel stack leaves the zero-initialized upper half. -/
def processTuple (env : Env) (st : LoopState) (t : CountTuple) :
    Except String LoopState :=
  match env.stackTraces t.userStackID with
  | none => .ok { st with droppedUser := st.droppedUser + 1 }
  | some us =>
    if stackDepth ≤ us.length then
      if 0 ≤ t.kernelStackID then
        match env.stackTraces t.kernelStackID with
        | none => .ok { st with droppedKernel := st.droppedKernel + 1 }
        | some ks =>
          if stackDepth ≤ ks.length then
            .ok (finishSample env st t (us.take stackDepth) (ks.take stackDepth))
          else .error "read kernel stack trace"
      else
        .ok (finishSample env st t (us.take stackDepth)
              (List.replicate stackDepth 0))
    else .error "read user stack trace"

/-- The whole drain loop over the decoded tuples of one cycle
(profiler.go:344-503). -/
def drainTuples (env : Env) : LoopState → List CountTuple → Except String LoopState
  | st, [] => .ok st
  | st, t :: ts =>
    match processTuple env st t with
    | .error e => .error e
    | .ok st2 => drainTuples env st2 ts

/-- The combined 254-slot aggregation key a tuple produces, when its
stack fetches succeed: user stack in slots 0..127, kernel stack (or
zeros) in slots 127..254 (profiler.go:382-399). -/
def combinedStack (env : Env) (t : CountTuple) : Option (List Nat) :=
  match env.stackTraces t.userStackID with
  | none => none
  | some us =>
    if stackDepth ≤ us.length then
      if 0 ≤ t.kernelStackID then
        match env.stackTraces t.kernelStackID with
        | none => none
        | some ks =>
          if stackDepth ≤ ks.length then
            some (us.take stackDepth ++ ks.take stackDepth)
          else none
      else some (us.take stackDepth ++ List.replicate stackDepth 0)
    else none

/-- Whether a tuple is dropped for a missing user stack
(profiler.go:375-379). -/
def userDropped (env : Env) (t : CountTuple) : Bool :=
  (env.stackTraces t.userStackID).isNone

/-- Whether a tuple is dropped for a missing kernel stack
(profiler.go:388-393). -/
def kernelDropped (env : Env) (t : CountTuple) : Bool :=
  match env.stackTraces t.userStackID with
  | none => false
  | some us =>
    decide (stackDepth ≤ us.length) && decide (0 ≤ t.kernelStackID) &&
      (env.stackTraces t.kernelStackID).isNone

/-- Sum of the count values of a list of drained tuples. -/
def totalCount (ts : List CountTuple) : Nat := (ts.map (·.count)).sum

/-- Sum of `Value[0]` over the samples of a cycle state. -/
def sampleSum (ss : List (List Nat × PSample)) : Int :=
  (ss.map (fun e => e.2.value)).sum

/-- Sum of the counts of the tuples dropped for a missing user stack. -/
def droppedUserSum (env : Env) (ts : List CountTuple) : Nat :=
  ((ts.filter (userDropped env)).map (·.count)).sum

/-- Sum of the counts of the tuples dropped for a missing kernel stack. -/
def droppedKernelSum (env : Env) (ts : List CountTuple) : Nat :=
  ((ts.filter (kernelDropped env)).map (·.count)).sum

/-- A pprof function as assembled at the end of the cycle; `isKernel`
distinguishes the kernel-symbol functions (profiler.go:551-554) from the
user JIT functions (559-562). -/
structure ProfFunction where
  id : Nat
  name : String
  isKernel : Bool
deriving DecidableEq

/-- A pprof mapping: its final numeric ID and backing file. -/
structure PMapping where
  id : Nat
  file : String
deriving DecidableEq

/-- The assembled profile of one cycle (the fields of profile.Profile
that the drain populates; profiler.go:308-323 and 508-562). -/
structure Profile where
  samples : List PSample
  locations : List Location
  functions : List ProfFunction
  mappings : List PMapping
  period : Int
deriving DecidableEq

/-- File of the kernel sentinel mapping (profiler.go:326-329). -/
def kernelMappingFile : String := "[kernel.kallsyms]"

/-- Assign sequential mapping IDs starting at `start`. -/
def numberMappings (start : Nat) : List String → List PMapping
  | [] => []
  | f :: rest => ⟨start, f⟩ :: numberMappings (start + 1) rest

/-- Modelled from the spec: `maps.Mapping.AllMappings` (pkg/maps, not
under src/) returns the distinct user-space mappings discovered this
cycle; per spec §4.7 step 5 the final numeric IDs are assigned to all
mappings sequentially, so the returned list carries IDs 1..n. -/
def allMappings (files : List String) : List PMapping :=
  numberMappings 1 files

/-- The name given to a kernel function: the resolved symbol, or
"not found" when resolution yields nothing (profiler.go:538-541). -/
def kernelSymbolName (ksym : Nat → Option String) (addr : Nat) : String :=
  match ksym addr with
  | some n => if n = "" then "not found" else n
  | none => "not found"

/-- Build the kernel-function table by walking the kernel locations and
creating one function per previously unseen address
(profiler.go:535-546). -/
def addKernelFunctions (ksym : Nat → Option String)
    (acc : List (Nat × String)) : List Nat → List (Nat × String)
  | [] => acc
  | a :: rest =>
    match lookupKey acc a with
    | some _ => addKernelFunctions ksym acc rest
    | none => addKernelFunctions ksym (acc ++ [(a, kernelSymbolName ksym a)]) rest

/-- `f.ID = len(prof.Function) + 1` followed by an append, for each
function in turn (profiler.go:551-554 and 559-562): sequential IDs from
`start`. -/
def numberFunctions (start : Nat) (isK : Bool) : List String → List ProfFunction
  | [] => []
  | n :: rest => ⟨start, n, isK⟩ :: numberFunctions (start + 1) isK rest

/-- The post-drain assembly of the profile (profiler.go:508-562): samples
from the cycle map; locations with kernel symbol names attached as the
single line of each kernel location; kernel functions numbered first,
then the kernel sentinel mapping appended last after the user mappings,
then the user JIT functions numbered after the kernel ones. -/
def buildProfile (st : LoopState) (files : List String)
    (ksym : Nat → Option String) : Profile :=
  let kfns := addKernelFunctions ksym [] st.kernelLocations
  let locs := st.locations.map fun l =>
    if l.isKernel then { l with line := some (kernelSymbolName ksym l.address) }
    else l
  let kfuncs := numberFunctions 1 true (kfns.map (·.2))
  let userMaps := allMappings files
  { samples := st.samples.map (·.2),
    locations := locs,
    functions :=
      kfuncs ++ numberFunctions (kfuncs.length + 1) false
        (st.userFunctions.map (·.2)),
    mappings := userMaps ++ [⟨userMaps.length + 1, kernelMappingFile⟩],
    period := 10000000 }

/-- The two sampler-owned BPF maps, as association lists in iteration
order (profiler.go:60-63).  Keys and values are abstract. -/
structure BpfMapsM (K V : Type) where
  counts : List (K × V)
  stackTraces : List (K × V)
deriving DecidableEq

/-- `DeleteKey` on a map (profiler.go:74/85/95/106): removes the entry
with the given key. -/
def deleteKey {K V : Type} [DecidableEq K] (m : List (K × V)) (k : K) :
    List (K × V) :=
  m.filter fun e => decide ¬ e.1 = k

/-- One map's clearing loop (profiler.go:70-89 resp. 91-110): iterate the
key sequence, deleting one step behind the cursor (the previous key is
deleted once the iterator has advanced past it), and delete the final key
after the loop.  `delOk` tells whether a `DeleteKey` call succeeds; a
failure returns the partially cleared map and the error. -/
def cleanIter {K V : Type} [DecidableEq K] (delOk : K → Bool) :
    List (K × V) → Option K → List K → List (K × V) × Option String
  | cur, none, [] => (cur, none)
  | cur, some p, [] =>
    if delOk p then (deleteKey cur p, none) else (cur, some "delete failed")
  | cur, none, k :: rest => cleanIter delOk cur (some k) rest
  | cur, some p, k :: rest =>
    if delOk p then cleanIter delOk (deleteKey cur p) (some k) rest
    else (cur, some "delete failed")

/-- Clear one map: run the one-step-behind deletion over the map's own
key sequence. -/
def cleanMap {K V : Type} [DecidableEq K] (delOk : K → Bool)
    (m : List (K × V)) : List (K × V) × Option String :=
  cleanIter delOk m none (m.map (·.1))

/-- `bpfMaps.clean` (profiler.go:65-113): clear `stack_traces` first,
then `counts`; the first failed deletion aborts with a wrapped error,
leaving the remaining entries in place. -/
def clean {K V : Type} [DecidableEq K] (delOk : K → Bool)
    (maps : BpfMapsM K V) : BpfMapsM K V × Option String :=
  let p := cleanMap delOk maps.stackTraces
  match p.2 with
  | some e =>
    ({ maps with stackTraces := p.1 },
      some ("failed to delete stack trace: " ++ e))
  | none =>
    let q := cleanMap delOk maps.counts
    match q.2 with
    | some e =>
      ({ counts := q.1, stackTraces := p.1 },
        some ("failed to delete count: " ++ e))
    | none => ({ counts := q.1, stackTraces := p.1 }, none)

/-- One whole profileLoop invocation (profiler.go:308-573): drain the
counts map; a decode/read error aborts the cycle; then resolve kernel
symbols (`ksymErr` is the outcome of ksymCache.Resolve, whose failure
aborts, profiler.go:531-534); assemble the profile; `sendErr` is the
outcome of sendProfile, which is logged and discarded (564-566); clean
the maps, the outcome likewise only logged (568-570); return nil. -/
def profileLoop {K V : Type} [DecidableEq K] (env : Env)
    (tuples : List CountTuple) (files : List String)
    (ksymErr : Option String) (ksym : Nat → Option String)
    (sendErr : Option String) (maps : BpfMapsM K V) (delOk : K → Bool) :
    Except String (Profile × BpfMapsM K V) :=
  match drainTuples env initState tuples with
  | .error e => .error e
  | .ok st =>
    match ksymErr with
    | some e => .error ("resolve kernel symbols: " ++ e)
    | none =>
      let prof := buildProfile st files ksym
      let _sendOutcome := sendErr
      let p := clean delOk maps
      .ok (prof, p.1)

/-- The per-tick observable state recorded by loopReport
(profiler.go:177-183). -/
structure ProfilerStatus where
  lastProfileTakenAt : Nat
  lastError : Option String
deriving DecidableEq

/-- One tick of CgroupProfiler.Run (profiler.go:298-305): invoke
profileLoop with the capture time and report `(captureTime, err)`
whatever the outcome. -/
def runTick {K V : Type} [DecidableEq K] (env : Env)
    (tuples : List CountTuple) (files : List String)
    (ksymErr : Option String) (ksym : Nat → Option String)
    (sendErr : Option String) (maps : BpfMapsM K V) (delOk : K → Bool)
    (captureTime : Nat) :
    ProfilerStatus × Option (Profile × BpfMapsM K V) :=
  match profileLoop env tuples files ksymErr ksym sendErr maps delOk with
  | .error e => (⟨captureTime, some e⟩, none)
  | .ok r => (⟨captureTime, none⟩, some r)

/-- An opened ELF file as the build-ID reader observes it
(src/unnamed/part_000, ElfBuildID).  `getBuildIDErr` and `gnuBuildID`
are the outcome of `elfexec.GetBuildID` — modelled from the spec:
elfexec (internal/pprof/elfexec, not under src/) returns the descriptor
bytes of the GNU build-ID note, `none` when the note is absent.
`newFileErr` is the outcome of `elf.NewFile` and `textSection` the
content of `Section(".text")`, which is nil when the section is
absent. -/
structure ElfFile where
  getBuildIDErr : Option String
  gnuBuildID : Option (List Nat)
  newFileErr : Option String
  textSection : Option (List Nat)
deriving DecidableEq

/-- Outcome of an ElfBuildID call: a build-ID string, a returned error,
or the nil-pointer dereference of `ef.Section(".text").Open()` when the
`.text` section is absent. -/
inductive BuildIDResult where
  | ok (id : String)
  | err (e : String)
  | nilDeref
deriving DecidableEq

/-- Lowercase hexadecimal digit of `n` (behaviour of encoding/hex and
fmt %x for the values that occur, namely `n < 16`). -/
def hexDigit (n : Nat) : Char :=
  if n < 10 then Char.ofNat (48 + n) else Char.ofNat (87 + n)

/-- The two lowercase hex digits of one byte. -/
def hexByte (b : Nat) : List Char :=
  [hexDigit (b / 16 % 16), hexDigit (b % 16)]

/-- `hex.EncodeToString` over a byte list: lowercase hex, two digits per
byte. -/
def hexEncode (bs : List Nat) : String :=
  ⟨(bs.map hexByte).flatten⟩

/-- Whether every character of a string is a lowercase hex digit. -/
def isLowerHexStr (s : String) : Bool :=
  s.data.all fun c => c ∈ "0123456789abcdef".data

/-- ElfBuildID (src/unnamed/part_000:36-64), for an already opened file:
return the hex of the GNU note descriptor when present; otherwise parse
the ELF and hash the `.text` section, whose absence makes
`ef.Section(".text").Open()` dereference a nil section.  The SHA-1
function is abstract (`sha1`). -/
def ElfBuildID (sha1 : List Nat → List Nat) (f : ElfFile) : BuildIDResult :=
  match f.getBuildIDErr with
  | some e => .err e
  | none =>
    match f.gnuBuildID with
    | some b => .ok (hexEncode b)
    | none =>
      match f.newFileErr with
      | some e => .err e
      | none =>
        match f.textSection with
        | some text => .ok (hexEncode (sha1 text))
        | none => .nilDeref

theorem hexDigit_mem_lower : ∀ n < 16, hexDigit n ∈ "0123456789abcdef".data := by
  decide

theorem hexEncode_lower (bs : List Nat) : isLowerHexStr (hexEncode bs) = true := by
  unfold isLowerHexStr hexEncode
  simp only [List.all_eq_true, decide_eq_true_eq]
  intro c hc
  simp only [List.mem_flatten, List.mem_map] at hc
  obtain ⟨l, ⟨b, _, rfl⟩, hcl⟩ := hc
  unfold hexByte at hcl
  simp only [List.mem_cons, List.not_mem_nil, or_false] at hcl
  rcases hcl with h | h
  · exact h ▸ hexDigit_mem_lower _ (Nat.mod_lt _ (by omega))
  · exact h ▸ hexDigit_mem_lower _ (Nat.mod_lt _ (by omega))

/-- C7: for an ELF file whose GNU build-ID note has descriptor `b`,
ElfBuildID returns the lowercase hex encoding of `b`; for a file without
the note but with a `.text` section of bytes `B`, it returns the
lowercase hex encoding of `sha1 B`. -/
theorem c7_build_id_round_trip (sha1 : List Nat → List Nat) (b B : List Nat)
    (t : Option (List Nat)) (ne : Option String) :
    ElfBuildID sha1 ⟨none, some b, ne, t⟩ = .ok (hexEncode b) ∧
    ElfBuildID sha1 ⟨none, none, none, some B⟩ = .ok (hexEncode (sha1 B)) ∧
    isLowerHexStr (hexEncode b) = true ∧
    isLowerHexStr (hexEncode (sha1 B)) = true :=
  ⟨rfl, rfl, hexEncode_lower b, hexEncode_lower (sha1 B)⟩

/-- C10: on an ELF file with neither a GNU build-ID note nor a `.text`
section, ElfBuildID does not take the error branch: it dereferences the
nil `.text` section returned by `Section(".text")`. -/
theorem c10_missing_text_nil_deref (sha1 : List Nat → List Nat) (e : String) :
    ElfBuildID sha1 ⟨none, none, none, none⟩ = .nilDeref ∧
    ElfBuildID sha1 ⟨none, none, none, none⟩ ≠ .err e ∧
    ElfBuildID sha1 ⟨none, none, none, none⟩ ≠ .ok e :=
  ⟨rfl, fun h => BuildIDResult.noConfusion h, fun h => BuildIDResult.noConfusion h⟩

/-- Sequential deletion of a list of keys, the net effect of the
one-step-behind protocol when every deletion succeeds. -/
def removeKeys {K V : Type} [DecidableEq K] : List (K × V) → List K → List (K × V)
  | m, [] => m
  | m, k :: rest => removeKeys (deleteKey m k) rest

theorem mem_deleteKey {K V : Type} [DecidableEq K] (m : List (K × V)) (k : K)
    (e : K × V) : e ∈ deleteKey m k ↔ e ∈ m ∧ ¬ e.1 = k := by
  unfold deleteKey
  simp [List.mem_filter]

theorem mem_removeKeys {K V : Type} [DecidableEq K] :
    ∀ (ks : List K) (m : List (K × V)) (e : K × V),
      e ∈ removeKeys m ks ↔ e ∈ m ∧ e.1 ∉ ks
  | [], m, e => by simp [removeKeys]
  | k :: rest, m, e => by
    unfold removeKeys
    rw [mem_removeKeys rest, mem_deleteKey]
    simp only [List.mem_cons]
    tauto

theorem removeKeys_self {K V : Type} [DecidableEq K] (m : List (K × V)) :
    removeKeys m (m.map (·.1)) = [] := by
  rw [List.eq_nil_iff_forall_not_mem]
  intro e he
  rw [mem_removeKeys] at he
  exact he.2 (List.mem_map_of_mem _ he.1)

theorem cleanIter_all_ok {K V : Type} [DecidableEq K] (delOk : K → Bool)
    (h : ∀ k, delOk k = true) :
    ∀ (rest : List K) (cur : List (K × V)) (prev : Option K),
      cleanIter delOk cur prev rest = (removeKeys cur (prev.toList ++ rest), none)
  | [], cur, none => rfl
  | [], cur, some p => by
    unfold cleanIter
    rw [h p]
    simp [removeKeys]
  | k :: rest, cur, none => by
    unfold cleanIter
    rw [cleanIter_all_ok delOk h rest cur (some k)]
    rfl
  | k :: rest, cur, some p => by
    unfold cleanIter
    rw [h p]
    simp only [if_true]
    rw [cleanIter_all_ok delOk h rest (deleteKey cur p) (some k)]
    rfl

theorem cleanMap_all_ok {K V : Type} [DecidableEq K] (delOk : K → Bool)
    (h : ∀ k, delOk k = true) (m : List (K × V)) :
    cleanMap delOk m = ([], none) := by
  unfold cleanMap
  rw [cleanIter_all_ok delOk h]
  simp [removeKeys_self]

/-- C3: clearing the sampler maps with the one-step-behind protocol
deletes every entry from both maps when no individual deletion fails, and
clearing already-empty maps succeeds and deletes nothing. -/
theorem c3_clean_spec {K V : Type} [DecidableEq K] (maps : BpfMapsM K V)
    (d2 : K → Bool) :
    clean (fun _ => true) maps = (⟨[], []⟩, none) ∧
    clean d2 (⟨[], []⟩ : BpfMapsM K V) = (⟨[], []⟩, none) := by
  constructor
  · have h1 := cleanMap_all_ok (fun _ : K => true) (fun _ => rfl) maps.stackTraces
    have h2 := cleanMap_all_ok (fun _ : K => true) (fun _ => rfl) maps.counts
    unfold clean
    rw [h1, h2]
  · rfl

theorem internKernelLoc_pres (st : LoopState) (a : Nat) :
    (internKernelLoc st a).1.samples = st.samples ∧
    (internKernelLoc st a).1.userFunctions = st.userFunctions ∧
    (internKernelLoc st a).1.droppedUser = st.droppedUser ∧
    (internKernelLoc st a).1.droppedKernel = st.droppedKernel := by
  unfold internKernelLoc
  cases e : lookupKey st.locationIndices (0, a) <;> simp [e]

theorem internKernelAddrs_pres :
    ∀ (addrs : List Nat) (st : LoopState),
      (internKernelAddrs st addrs).1.samples = st.samples ∧
      (internKernelAddrs st addrs).1.userFunctions = st.userFunctions ∧
      (internKernelAddrs st addrs).1.droppedUser = st.droppedUser ∧
      (internKernelAddrs st addrs).1.droppedKernel = st.droppedKernel
  | [], st => ⟨rfl, rfl, rfl, rfl⟩
  | a :: rest, st => by
    unfold internKernelAddrs
    by_cases ha : a = 0
    · simp only [ha, ne_eq, not_true_eq_false, if_false]
      exact internKernelAddrs_pres rest st
    · simp only [ne_eq, ha, not_false_eq_true, if_true]
      have h1 := internKernelAddrs_pres rest (internKernelLoc st a).1
      have h2 := internKernelLoc_pres st a
      exact ⟨h1.1.trans h2.1, h1.2.1.trans h2.2.1,
        h1.2.2.1.trans h2.2.2.1, h1.2.2.2.trans h2.2.2.2⟩

theorem internUserLoc_pres (env : Env) (pid : Nat) (st : LoopState) (a : Nat) :
    (internUserLoc env pid st a).1.samples = st.samples ∧
    (internUserLoc env pid st a).1.kernelLocations = st.kernelLocations ∧
    (internUserLoc env pid st a).1.kernelAddresses = st.kernelAddresses ∧
    (internUserLoc env pid st a).1.droppedUser = st.droppedUser ∧
    (internUserLoc env pid st a).1.droppedKernel = st.droppedKernel := by
  unfold internUserLoc
  cases e : lookupKey st.locationIndices (pid, a) <;> simp [e]

theorem internUserAddrs_pres (env : Env) (pid : Nat) :
    ∀ (addrs : List Nat) (st : LoopState),
      (internUserAddrs env pid st addrs).1.samples = st.samples ∧
      (internUserAddrs env pid st addrs).1.kernelLocations = st.kernelLocations ∧
      (internUserAddrs env pid st addrs).1.kernelAddresses = st.kernelAddresses ∧
      (internUserAddrs env pid st addrs).1.droppedUser = st.droppedUser ∧
      (internUserAddrs env pid st addrs).1.droppedKernel = st.droppedKernel
  | [], st => ⟨rfl, rfl, rfl, rfl, rfl⟩
  | a :: rest, st => by
    unfold internUserAddrs
    by_cases ha : a = 0
    · simp only [ha, ne_eq, not_true_eq_false, if_false]
      exact internUserAddrs_pres env pid rest st
    · simp only [ne_eq, ha, not_false_eq_true, if_true]
      have h1 := internUserAddrs_pres env pid rest (internUserLoc env pid st a).1
      have h2 := internUserLoc_pres env pid st a
      exact ⟨h1.1.trans h2.1, h1.2.1.trans h2.2.1, h1.2.2.1.trans h2.2.2.1,
        h1.2.2.2.1.trans h2.2.2.2.1, h1.2.2.2.2.trans h2.2.2.2.2⟩

/-- C6: a tuple whose user-stack fetch misses only increments the
`missing_stacks{type=user}` counter: no sample is produced, no other
state changes, the error is swallowed (`.ok`) and the drain continues
with the remaining tuples. -/
theorem c6_missing_user_stack (env : Env) (st : LoopState) (t : CountTuple)
    (ts : List CountTuple) (h : env.stackTraces t.userStackID = none) :
    processTuple env st t = .ok { st with droppedUser := st.droppedUser + 1 } ∧
    drainTuples env st (t :: ts) =
      drainTuples env { st with droppedUser := st.droppedUser + 1 } ts := by
  have h1 : processTuple env st t =
      .ok { st with droppedUser := st.droppedUser + 1 } := by
    unfold processTuple
    rw [h]
  refine ⟨h1, ?_⟩
  show (match processTuple env st t with
    | Except.error e => Except.error e
    | Except.ok st2 => drainTuples env st2 ts) =
      drainTuples env { st with droppedUser := st.droppedUser + 1 } ts
  rw [h1]

theorem internUserLoc_congr (env env' : Env) (pid : Nat)
    (hn : ∀ x, env'.normalize pid x = env.normalize pid x)
    (hp : ∀ x, env'.perfLookup pid x = env.perfLookup pid x)
    (st : LoopState) (a : Nat) :
    internUserLoc env' pid st a = internUserLoc env pid st a := by
  unfold internUserLoc
  rw [hn a, hp a]

theorem internUserAddrs_congr (env env' : Env) (pid : Nat)
    (hn : ∀ x, env'.normalize pid x = env.normalize pid x)
    (hp : ∀ x, env'.perfLookup pid x = env.perfLookup pid x) :
    ∀ (addrs : List Nat) (st : LoopState),
      internUserAddrs env' pid st addrs = internUserAddrs env pid st addrs
  | [], st => rfl
  | a :: rest, st => by
    unfold internUserAddrs
    by_cases ha : a = 0
    · simp only [ha, ne_eq, not_true_eq_false, if_false]
      exact internUserAddrs_congr env env' pid hn hp rest st
    · simp only [ne_eq, ha, not_false_eq_true, if_true,
        internUserLoc_congr env env' pid hn hp st a,
        internUserAddrs_congr env env' pid hn hp rest]

theorem finishSample_congr (env env' : Env) (st : LoopState) (t : CountTuple)
    (u k : List Nat)
    (hn : ∀ x, env'.normalize t.pid x = env.normalize t.pid x)
    (hp : ∀ x, env'.perfLookup t.pid x = env.perfLookup t.pid x) :
    finishSample env' st t u k = finishSample env st t u k := by
  unfold finishSample
  cases e : lookupKey st.samples (u ++ k) <;>
    simp only [e, internUserAddrs_congr env env' t.pid hn hp]

theorem processTuple_user_miss (env : Env) (st : LoopState) (t : CountTuple)
    (h : env.stackTraces t.userStackID = none) :
    processTuple env st t = .ok { st with droppedUser := st.droppedUser + 1 } := by
  unfold processTuple
  rw [h]

theorem processTuple_user_short (env : Env) (st : LoopState) (t : CountTuple)
    (us : List Nat) (hu : env.stackTraces t.userStackID = some us)
    (hl : ¬ stackDepth ≤ us.length) :
    processTuple env st t = .error "read user stack trace" := by
  unfold processTuple
  split
  · rename_i h
    rw [hu] at h
    cases h
  · rename_i us2 h
    rw [hu] at h
    injection h with h
    subst h
    rw [if_neg hl]

theorem processTuple_kernel_miss (env : Env) (st : LoopState) (t : CountTuple)
    (us : List Nat) (hu : env.stackTraces t.userStackID = some us)
    (hl : stackDepth ≤ us.length) (hk : 0 ≤ t.kernelStackID)
    (hks : env.stackTraces t.kernelStackID = none) :
    processTuple env st t =
      .ok { st with droppedKernel := st.droppedKernel + 1 } := by
  unfold processTuple
  split
  · rename_i h
    rw [hu] at h
    cases h
  · rename_i us2 h
    rw [hu] at h
    injection h with h
    subst h
    rw [if_pos hl, if_pos hk, hks]

theorem processTuple_kernel_short (env : Env) (st : LoopState) (t : CountTuple)
    (us ks : List Nat) (hu : env.stackTraces t.userStackID = some us)
    (hl : stackDepth ≤ us.length) (hk : 0 ≤ t.kernelStackID)
    (hks : env.stackTraces t.kernelStackID = some ks)
    (hkl : ¬ stackDepth ≤ ks.length) :
    processTuple env st t = .error "read kernel stack trace" := by
  unfold processTuple
  split
  · rename_i h
    rw [hu] at h
    cases h
  · rename_i us2 h
    rw [hu] at h
    injection h with h
    subst h
    rw [if_pos hl, if_pos hk]
    split
    · rename_i h2
      rw [hks] at h2
      cases h2
    · rename_i ks2 h2
      rw [hks] at h2
      injection h2 with h2
      subst h2
      rw [if_neg hkl]

theorem processTuple_full (env : Env) (st : LoopState) (t : CountTuple)
    (us ks : List Nat) (hu : env.stackTraces t.userStackID = some us)
    (hl : stackDepth ≤ us.length) (hk : 0 ≤ t.kernelStackID)
    (hks : env.stackTraces t.kernelStackID = some ks)
    (hkl : stackDepth ≤ ks.length) :
    processTuple env st t =
      .ok (finishSample env st t (us.take stackDepth) (ks.take stackDepth)) := by
  unfold processTuple
  split
  · rename_i h
    rw [hu] at h
    cases h
  · rename_i us2 h
    rw [hu] at h
    injection h with h
    subst h
    rw [if_pos hl, if_pos hk]
    split
    · rename_i h2
      rw [hks] at h2
      cases h2
    · rename_i ks2 h2
      rw [hks] at h2
      injection h2 with h2
      subst h2
      rw [if_pos hkl]

theorem processTuple_no_kernel (env : Env) (st : LoopState) (t : CountTuple)
    (us : List Nat) (hu : env.stackTraces t.userStackID = some us)
    (hl : stackDepth ≤ us.length) (hk : ¬ 0 ≤ t.kernelStackID) :
    processTuple env st t =
      .ok (finishSample env st t (us.take stackDepth)
            (List.replicate stackDepth 0)) := by
  unfold processTuple
  split
  · rename_i h
    rw [hu] at h
    cases h
  · rename_i us2 h
    rw [hu] at h
    injection h with h
    subst h
    rw [if_pos hl, if_neg hk]

theorem processTuple_congr (env env' : Env) (st : LoopState) (t : CountTuple)
    (hs : env'.stackTraces t.userStackID = env.stackTraces t.userStackID)
    (hsk : 0 ≤ t.kernelStackID →
      env'.stackTraces t.kernelStackID = env.stackTraces t.kernelStackID)
    (hn : ∀ x, env'.normalize t.pid x = env.normalize t.pid x)
    (hp : ∀ x, env'.perfLookup t.pid x = env.perfLookup t.pid x) :
    processTuple env' st t = processTuple env st t := by
  cases e : env.stackTraces t.userStackID
  · rw [processTuple_user_miss env st t e,
      processTuple_user_miss env' st t (hs.trans e)]
  · rename_i us
    by_cases hl : stackDepth ≤ us.length
    · by_cases hk : 0 ≤ t.kernelStackID
      · cases e2 : env.stackTraces t.kernelStackID
        · rw [processTuple_kernel_miss env st t us e hl hk e2,
            processTuple_kernel_miss env' st t us (hs.trans e) hl hk
              ((hsk hk).trans e2)]
        · rename_i ks
          by_cases hkl : stackDepth ≤ ks.length
          · rw [processTuple_full env st t us ks e hl hk e2 hkl,
              processTuple_full env' st t us ks (hs.trans e) hl hk
                ((hsk hk).trans e2) hkl,
              finishSample_congr env env' st t _ _ hn hp]
          · rw [processTuple_kernel_short env st t us ks e hl hk e2 hkl,
              processTuple_kernel_short env' st t us ks (hs.trans e) hl hk
                ((hsk hk).trans e2) hkl]
      · rw [processTuple_no_kernel env st t us e hl hk,
          processTuple_no_kernel env' st t us (hs.trans e) hl hk,
          finishSample_congr env env' st t _ _ hn hp]
    · rw [processTuple_user_short env st t us e hl,
        processTuple_user_short env' st t us (hs.trans e) hl]

theorem internKernelAddrs_replicate_zero (st : LoopState) :
    ∀ n, internKernelAddrs st (List.replicate n 0) = (st, [])
  | 0 => rfl
  | n + 1 => by
    rw [List.replicate_succ]
    unfold internKernelAddrs
    simp only [ne_eq, not_true_eq_false, if_false]
    exact internKernelAddrs_replicate_zero st n

theorem bumpSample_keys : ∀ (ss : List (List Nat × PSample)) (k : List Nat) (c : Nat),
    (bumpSample ss k c).map (·.1) = ss.map (·.1)
  | [], _, _ => rfl
  | (k', s) :: rest, k, c => by
    unfold bumpSample
    by_cases h : k' = k
    · simp only [if_pos h, List.map_cons]
    · simp only [if_neg h, List.map_cons, bumpSample_keys rest k c]

theorem internUserLoc_locations_mem (env : Env) (pid : Nat) (st : LoopState)
    (a : Nat) :
    ∀ l ∈ (internUserLoc env pid st a).1.locations,
      l ∈ st.locations ∨ (l.isKernel = false ∧ l.pid = pid) := by
  unfold internUserLoc
  cases e : lookupKey st.locationIndices (pid, a)
  · simp only [e]
    intro l hl
    simp only [List.mem_append, List.mem_singleton] at hl
    rcases hl with hl | hl
    · exact Or.inl hl
    · subst hl
      exact Or.inr ⟨rfl, rfl⟩
  · simp only [e]
    exact fun l hl => Or.inl hl

theorem internUserAddrs_locations_mem (env : Env) (pid : Nat) :
    ∀ (addrs : List Nat) (st : LoopState),
      ∀ l ∈ (internUserAddrs env pid st addrs).1.locations,
        l ∈ st.locations ∨ (l.isKernel = false ∧ l.pid = pid)
  | [], st => fun l hl => Or.inl hl
  | a :: rest, st => by
    unfold internUserAddrs
    by_cases ha : a = 0
    · simp only [ha, ne_eq, not_true_eq_false, if_false]
      exact internUserAddrs_locations_mem env pid rest st
    · simp only [ne_eq, ha, not_false_eq_true, if_true]
      intro l hl
      rcases internUserAddrs_locations_mem env pid rest _ l hl with h | h
      · exact internUserLoc_locations_mem env pid st a l h
      · exact Or.inr h

theorem finishSample_zero_kernel (env : Env) (st : LoopState) (t : CountTuple)
    (u : List Nat) (hu : u.length = stackDepth) :
    (finishSample env st t u (List.replicate stackDepth 0)).kernelLocations =
      st.kernelLocations ∧
    (finishSample env st t u (List.replicate stackDepth 0)).kernelAddresses =
      st.kernelAddresses ∧
    (∀ l ∈ (finishSample env st t u (List.replicate stackDepth 0)).locations,
      l ∈ st.locations ∨ l.isKernel = false) ∧
    (∀ k ∈ (finishSample env st t u (List.replicate stackDepth 0)).samples.map (·.1),
      k ∈ st.samples.map (·.1) ∨
        k.drop stackDepth = List.replicate stackDepth 0) := by
  unfold finishSample
  cases e : lookupKey st.samples (u ++ List.replicate stackDepth 0)
  · simp only [e, internKernelAddrs_replicate_zero st stackDepth]
    have hp := internUserAddrs_pres env t.pid u st
    refine ⟨hp.2.1, hp.2.2.1, ?_, ?_⟩
    · intro l hl
      rcases internUserAddrs_locations_mem env t.pid u st l hl with h | h
      · exact Or.inl h
      · exact Or.inr h.1
    · intro k hk
      rw [List.map_append, hp.1] at hk
      rcases List.mem_append.mp hk with h | h
      · exact Or.inl h
      · simp only [List.map_cons, List.map_nil, List.mem_singleton] at h
        subst h
        exact Or.inr (List.drop_left' hu)
  · simp only [e]
    refine ⟨trivial, trivial, fun l hl => Or.inl hl, ?_⟩
    intro k hk
    rw [bumpSample_keys] at hk
    exact Or.inl hk

/-- C5: for a tuple with a negative kernel stack id the kernel stack is
not fetched (the result only depends on the stack-traces map at the user
stack id), the upper half of the combined aggregation key is all zeros,
and no kernel locations are produced: the kernel location list and the
kernel address set are unchanged and every new location is a user
location. -/
theorem c5_negative_kernel_sid (env env' : Env) (st st' : LoopState)
    (t : CountTuple) (us : List Nat)
    (hk : t.kernelStackID < 0)
    (hu : env.stackTraces t.userStackID = some us)
    (hlen : stackDepth ≤ us.length)
    (hu' : env'.stackTraces t.userStackID = env.stackTraces t.userStackID)
    (hn : ∀ x, env'.normalize t.pid x = env.normalize t.pid x)
    (hp : ∀ x, env'.perfLookup t.pid x = env.perfLookup t.pid x)
    (hres : processTuple env st t = .ok st') :
    processTuple env' st t = .ok st' ∧
    processTuple env st t =
      .ok (finishSample env st t (us.take stackDepth)
            (List.replicate stackDepth 0)) ∧
    st'.kernelLocations = st.kernelLocations ∧
    st'.kernelAddresses = st.kernelAddresses ∧
    (∀ l ∈ st'.locations, l ∈ st.locations ∨ l.isKernel = false) ∧
    (∀ k ∈ st'.samples.map (·.1),
      k ∈ st.samples.map (·.1) ∨
        k.drop stackDepth = List.replicate stackDepth 0) := by
  have hnotk : ¬ 0 ≤ t.kernelStackID := by omega
  have h2 : processTuple env st t =
      .ok (finishSample env st t (us.take stackDepth)
            (List.replicate stackDepth 0)) :=
    processTuple_no_kernel env st t us hu hlen hnotk
  have h1 : processTuple env' st t = processTuple env st t :=
    processTuple_congr env env' st t hu' (fun h0 => absurd h0 hnotk) hn hp
  have hst' : finishSample env st t (us.take stackDepth)
      (List.replicate stackDepth 0) = st' := by
    rw [h2] at hres
    exact Except.ok.inj hres
  have hul : (us.take stackDepth).length = stackDepth := by
    rw [List.length_take]
    omega
  have hz := finishSample_zero_kernel env st t (us.take stackDepth) hul
  rw [hst'] at hz
  exact ⟨h1.trans hres, h2, hz.1, hz.2.1, hz.2.2.1, hz.2.2.2⟩

theorem drainTuples_nil (env : Env) (st : LoopState) :
    drainTuples env st [] = .ok st := rfl

theorem drainTuples_cons_ok (env : Env) (st : LoopState) (t : CountTuple)
    (ts : List CountTuple) (st2 : LoopState)
    (h : processTuple env st t = .ok st2) :
    drainTuples env st (t :: ts) = drainTuples env st2 ts := by
  show (match processTuple env st t with
    | Except.error e => Except.error e
    | Except.ok st2 => drainTuples env st2 ts) = drainTuples env st2 ts
  rw [h]

theorem drainTuples_cons_err (env : Env) (st : LoopState) (t : CountTuple)
    (ts : List CountTuple) (e : String)
    (h : processTuple env st t = .error e) :
    drainTuples env st (t :: ts) = .error e := by
  show (match processTuple env st t with
    | Except.error e => Except.error e
    | Except.ok st2 => drainTuples env st2 ts) = .error e
  rw [h]

theorem combinedStack_some (env : Env) (t : CountTuple) (s : List Nat)
    (h : combinedStack env t = some s) :
    ∃ us, env.stackTraces t.userStackID = some us ∧ stackDepth ≤ us.length ∧
      ((¬ 0 ≤ t.kernelStackID ∧
          s = us.take stackDepth ++ List.replicate stackDepth 0) ∨
       (∃ ks, 0 ≤ t.kernelStackID ∧
          env.stackTraces t.kernelStackID = some ks ∧ stackDepth ≤ ks.length ∧
          s = us.take stackDepth ++ ks.take stackDepth)) := by
  unfold combinedStack at h
  split at h
  · cases h
  · rename_i us heq
    split at h
    · rename_i hl
      split at h
      · rename_i hk
        split at h
        · cases h
        · rename_i ks heq2
          split at h
          · rename_i hkl
            exact ⟨us, heq, hl,
              Or.inr ⟨ks, hk, heq2, hkl, (Option.some.inj h).symm⟩⟩
          · cases h
      · rename_i hk
        exact ⟨us, heq, hl, Or.inl ⟨hk, (Option.some.inj h).symm⟩⟩
    · cases h

theorem processTuple_of_combined (env : Env) (st : LoopState) (t : CountTuple)
    (s : List Nat) (h : combinedStack env t = some s) :
    processTuple env st t =
      .ok (finishSample env st t (s.take stackDepth) (s.drop stackDepth)) := by
  obtain ⟨us, hu, hl, hcase⟩ := combinedStack_some env t s h
  have hul : (us.take stackDepth).length = stackDepth := by
    rw [List.length_take]
    omega
  rcases hcase with ⟨hk, rfl⟩ | ⟨ks, hk, hks, hkl, rfl⟩
  · rw [processTuple_no_kernel env st t us hu hl hk,
      List.take_left' hul, List.drop_left' hul]
  · rw [processTuple_full env st t us ks hu hl hk hks hkl,
      List.take_left' hul, List.drop_left' hul]

theorem combinedStack_congr (env env' : Env) (t : CountTuple)
    (hst : env'.stackTraces = env.stackTraces) :
    combinedStack env' t = combinedStack env t := by
  unfold combinedStack
  rw [hst]

theorem finishSample_hit (env : Env) (st : LoopState) (t : CountTuple)
    (u k : List Nat) (smp : PSample)
    (e : lookupKey st.samples (u ++ k) = some smp) :
    finishSample env st t u k =
      { st with samples := bumpSample st.samples (u ++ k) t.count } := by
  unfold finishSample
  simp only [e]

theorem finishSample_from_empty (env : Env) (st : LoopState) (t : CountTuple)
    (u k : List Nat) (hs : st.samples = []) :
    (finishSample env st t u k).samples =
      [(u ++ k, ⟨(t.count : Int),
        (internKernelAddrs st k).2 ++
          (internUserAddrs env t.pid (internKernelAddrs st k).1 u).2⟩)] ∧
    (finishSample env st t u k).locations =
      (internUserAddrs env t.pid (internKernelAddrs st k).1 u).1.locations := by
  have e : lookupKey st.samples (u ++ k) = none := by
    rw [hs]
    rfl
  unfold finishSample
  simp only [e]
  constructor
  · rw [(internUserAddrs_pres env t.pid u _).1, (internKernelAddrs_pres k st).1, hs]
    rfl
  · trivial

/-- The location-index list of the first sample built from the empty
state for combined stack `s` by a tuple of pid `t1.pid`. -/
def firstSampleLocs (env : Env) (t1 : CountTuple) (s : List Nat) : List Nat :=
  (internKernelAddrs initState (s.drop stackDepth)).2 ++
    (internUserAddrs env t1.pid
      (internKernelAddrs initState (s.drop stackDepth)).1 (s.take stackDepth)).2

theorem drain_two_eval (env : Env) (t1 t2 : CountTuple) (s : List Nat)
    (h1 : combinedStack env t1 = some s) (h2 : combinedStack env t2 = some s) :
    drainTuples env initState [t1] =
      .ok (finishSample env initState t1 (s.take stackDepth) (s.drop stackDepth)) ∧
    (finishSample env initState t1 (s.take stackDepth) (s.drop stackDepth)).samples
      = [(s, ⟨(t1.count : Int), firstSampleLocs env t1 s⟩)] ∧
    drainTuples env initState [t1, t2] =
      .ok { finishSample env initState t1 (s.take stackDepth) (s.drop stackDepth)
            with samples := [(s, ⟨(t1.count : Int) + (t2.count : Int),
              firstSampleLocs env t1 s⟩)] } := by
  have p1 := processTuple_of_combined env initState t1 s h1
  set F := finishSample env initState t1 (s.take stackDepth) (s.drop stackDepth)
    with hF
  set L := firstSampleLocs env t1 s with hL
  have e1 : drainTuples env initState [t1] = .ok F := by
    rw [drainTuples_cons_ok env initState t1 [] _ p1, drainTuples_nil]
  have hs1 : F.samples = [(s, ⟨(t1.count : Int), L⟩)] := by
    have := (finishSample_from_empty env initState t1 (s.take stackDepth)
      (s.drop stackDepth) rfl).1
    rw [List.take_append_drop] at this
    exact this
  have p2 := processTuple_of_combined env F t2 s h2
  have ehit : lookupKey F.samples (s.take stackDepth ++ s.drop stackDepth) =
      some ⟨(t1.count : Int), L⟩ := by
    rw [List.take_append_drop, hs1]
    simp [lookupKey]
  have hfin2 : finishSample env F t2 (s.take stackDepth) (s.drop stackDepth) =
      { F with samples :=
          bumpSample F.samples (s.take stackDepth ++ s.drop stackDepth) t2.count } :=
    finishSample_hit env F t2 _ _ _ ehit
  have hbump : bumpSample F.samples (s.take stackDepth ++ s.drop stackDepth)
      t2.count = [(s, ⟨(t1.count : Int) + (t2.count : Int), L⟩)] := by
    rw [List.take_append_drop, hs1]
    simp [bumpSample]
  have pt2 : processTuple env F t2 =
      .ok { F with samples := [(s, ⟨(t1.count : Int) + (t2.count : Int), L⟩)] } := by
    rw [p2, hfin2, hbump]
  have e2 : drainTuples env initState [t1, t2] =
      .ok { F with samples := [(s, ⟨(t1.count : Int) + (t2.count : Int), L⟩)] } := by
    rw [drainTuples_cons_ok env initState t1 [t2] F p1,
      drainTuples_cons_ok env F t2 [] _ pt2, drainTuples_nil]
  exact ⟨e1, hs1, e2⟩

/-- C2: two drained tuples with the same combined 254-slot stack produce
exactly one sample whose Value[0] is the sum of the two counts, and the
second tuple creates no new locations. -/
theorem c2_duplicate_stacks (env : Env) (t1 t2 : CountTuple) (s : List Nat)
    (st1 st2 : LoopState) (files : List String) (ksym : Nat → Option String)
    (h1 : combinedStack env t1 = some s) (h2 : combinedStack env t2 = some s)
    (hd1 : drainTuples env initState [t1] = .ok st1)
    (hd2 : drainTuples env initState [t1, t2] = .ok st2) :
    st2.samples.map (·.1) = [s] ∧
    st2.samples.map (fun e => e.2.value) = [(t1.count : Int) + (t2.count : Int)] ∧
    st2.locations = st1.locations ∧
    (buildProfile st2 files ksym).samples.length = 1 := by
  obtain ⟨e1, hs1, e2⟩ := drain_two_eval env t1 t2 s h1 h2
  have hst1 : st1 = finishSample env initState t1 (s.take stackDepth)
      (s.drop stackDepth) := (Except.ok.inj (e1.symm.trans hd1)).symm
  have hst2 : st2 =
      { finishSample env initState t1 (s.take stackDepth) (s.drop stackDepth)
        with samples := [(s, ⟨(t1.count : Int) + (t2.count : Int),
          firstSampleLocs env t1 s⟩)] } :=
    (Except.ok.inj (e2.symm.trans hd2)).symm
  refine ⟨?_, ?_, ?_, ?_⟩
  · rw [hst2]
    rfl
  · rw [hst2]
    rfl
  · rw [hst2, hst1]
  · rw [hst2]
    simp [buildProfile]

def uStackA : List Nat := 4096 :: 4100 :: List.replicate 125 0

def kStackA : List Nat := 8192 :: List.replicate 126 0

def c2Env : Env :=
  ⟨fun sid => if sid = 3 then some uStackA else
      if sid = 4 then some kStackA else none,
    fun _ a => a, fun _ _ => none⟩

def c2S : List Nat := uStackA ++ kStackA

def c2St1 : LoopState :=
  match drainTuples c2Env initState [⟨7, 3, 4, 2⟩] with
  | .ok st => st
  | .error _ => initState

def c2St2 : LoopState :=
  match drainTuples c2Env initState [⟨7, 3, 4, 2⟩, ⟨7, 3, 4, 4⟩] with
  | .ok st => st
  | .error _ => initState

set_option maxRecDepth 8000 in
theorem c2_duplicate_stacks_witness :
    c2St2.samples.map (·.1) = [c2S] ∧
    c2St2.samples.map (fun e => e.2.value) =
      [((2 : Nat) : Int) + ((4 : Nat) : Int)] ∧
    c2St2.locations = c2St1.locations ∧
    (buildProfile c2St2 [] (fun _ => none)).samples.length = 1 :=
  c2_duplicate_stacks c2Env ⟨7, 3, 4, 2⟩ ⟨7, 3, 4, 4⟩ c2S c2St1 c2St2 []
    (fun _ => none) rfl rfl rfl rfl

theorem internKernelLoc_locations_mem (st : LoopState) (a : Nat) :
    ∀ l ∈ (internKernelLoc st a).1.locations,
      l ∈ st.locations ∨ l.isKernel = true := by
  unfold internKernelLoc
  cases e : lookupKey st.locationIndices (0, a)
  · simp only [e]
    intro l hl
    simp only [List.mem_append, List.mem_singleton] at hl
    rcases hl with hl | hl
    · exact Or.inl hl
    · subst hl
      exact Or.inr rfl
  · simp only [e]
    exact fun l hl => Or.inl hl

theorem internKernelAddrs_locations_mem :
    ∀ (addrs : List Nat) (st : LoopState),
      ∀ l ∈ (internKernelAddrs st addrs).1.locations,
        l ∈ st.locations ∨ l.isKernel = true
  | [], _ => fun l hl => Or.inl hl
  | a :: rest, st => by
    unfold internKernelAddrs
    by_cases ha : a = 0
    · simp only [ha, ne_eq, not_true_eq_false, if_false]
      exact internKernelAddrs_locations_mem rest st
    · simp only [ne_eq, ha, not_false_eq_true, if_true]
      intro l hl
      rcases internKernelAddrs_locations_mem rest _ l hl with h | h
      · exact internKernelLoc_locations_mem st a l h
      · exact Or.inr h

/-- C8: the aggregation key is the combined stack only, not the pid: two
tuples with different pids but the same combined stack produce exactly
one sample; its location list is the one built from the first tuple's
pid, the second tuple's count is merely added, and the run never
consults the normalization or perf-map data of any pid other than the
first tuple's. -/
theorem c8_pid_not_in_key (env env' : Env) (t1 t2 : CountTuple) (s : List Nat)
    (st1 st2 : LoopState)
    (hpid : t1.pid ≠ t2.pid)
    (h1 : combinedStack env t1 = some s) (h2 : combinedStack env t2 = some s)
    (hd1 : drainTuples env initState [t1] = .ok st1)
    (hd2 : drainTuples env initState [t1, t2] = .ok st2)
    (hstk : env'.stackTraces = env.stackTraces)
    (hn : ∀ x, env'.normalize t1.pid x = env.normalize t1.pid x)
    (hp : ∀ x, env'.perfLookup t1.pid x = env.perfLookup t1.pid x) :
    st2.samples.map (·.1) = [s] ∧
    st2.samples.map (fun e => e.2.value) = [(t1.count : Int) + (t2.count : Int)] ∧
    st2.locations = st1.locations ∧
    st2.samples.map (fun e => e.2.locIdxs) =
      st1.samples.map (fun e => e.2.locIdxs) ∧
    (∀ l ∈ st1.locations, l.isKernel = true ∨ l.pid = t1.pid) ∧
    drainTuples env' initState [t1, t2] = .ok st2 := by
  obtain ⟨e1, hs1, e2⟩ := drain_two_eval env t1 t2 s h1 h2
  have hst1 : st1 = finishSample env initState t1 (s.take stackDepth)
      (s.drop stackDepth) := (Except.ok.inj (e1.symm.trans hd1)).symm
  have hst2 : st2 =
      { finishSample env initState t1 (s.take stackDepth) (s.drop stackDepth)
        with samples := [(s, ⟨(t1.count : Int) + (t2.count : Int),
          firstSampleLocs env t1 s⟩)] } :=
    (Except.ok.inj (e2.symm.trans hd2)).symm
  refine ⟨?_, ?_, ?_, ?_, ?_, ?_⟩
  · rw [hst2]
    rfl
  · rw [hst2]
    rfl
  · rw [hst2, hst1]
  · rw [hst2, hst1, hs1]
    rfl
  · rw [hst1]
    intro l hl
    rw [(finishSample_from_empty env initState t1 (s.take stackDepth)
      (s.drop stackDepth) rfl).2] at hl
    rcases internUserAddrs_locations_mem env t1.pid (s.take stackDepth) _ l hl
      with h | h
    · rcases internKernelAddrs_locations_mem (s.drop stackDepth) initState l h
        with h' | h'
      · cases h'
      · exact Or.inl h'
    · exact Or.inr h.2
  · have h1' : combinedStack env' t1 = some s :=
      (combinedStack_congr env env' t1 hstk).trans h1
    have h2' : combinedStack env' t2 = some s :=
      (combinedStack_congr env env' t2 hstk).trans h2
    obtain ⟨_, _, e2'⟩ := drain_two_eval env' t1 t2 s h1' h2'
    have hFF : finishSample env' initState t1 (s.take stackDepth)
        (s.drop stackDepth) =
        finishSample env initState t1 (s.take stackDepth) (s.drop stackDepth) :=
      finishSample_congr env env' initState t1 _ _ hn hp
    have hLL : firstSampleLocs env' t1 s = firstSampleLocs env t1 s := by
      unfold firstSampleLocs
      rw [internUserAddrs_congr env env' t1.pid hn hp]
    rw [hFF, hLL] at e2'
    rw [hst2]
    exact e2'

def c8Env : Env :=
  ⟨fun sid => if sid = 3 then some uStackA else
      if sid = 4 then some kStackA else none,
    fun _ a => a, fun _ _ => none⟩

def c8EnvB : Env :=
  ⟨fun sid => if sid = 3 then some uStackA else
      if sid = 4 then some kStackA else none,
    fun p a => if p = 9 then a + 1000 else a,
    fun p _ => if p = 9 then some "other" else none⟩

def c8St1 : LoopState :=
  match drainTuples c8Env initState [⟨7, 3, 4, 2⟩] with
  | .ok st => st
  | .error _ => initState

def c8St2 : LoopState :=
  match drainTuples c8Env initState [⟨7, 3, 4, 2⟩, ⟨9, 3, 4, 4⟩] with
  | .ok st => st
  | .error _ => initState

set_option maxRecDepth 8000 in
theorem c8_pid_not_in_key_witness :
    c8St2.samples.map (·.1) = [c2S] ∧
    c8St2.samples.map (fun e => e.2.value) =
      [((2 : Nat) : Int) + ((4 : Nat) : Int)] ∧
    c8St2.locations = c8St1.locations ∧
    c8St2.samples.map (fun e => e.2.locIdxs) =
      c8St1.samples.map (fun e => e.2.locIdxs) ∧
    (∀ l ∈ c8St1.locations, l.isKernel = true ∨ l.pid = 7) ∧
    drainTuples c8EnvB initState [⟨7, 3, 4, 2⟩, ⟨9, 3, 4, 4⟩] = .ok c8St2 :=
  c8_pid_not_in_key c8Env c8EnvB ⟨7, 3, 4, 2⟩ ⟨9, 3, 4, 4⟩ c2S c8St1 c8St2
    (by decide) rfl rfl rfl rfl rfl (fun _ => rfl) (fun _ => rfl)

theorem sampleSum_cons (e : List Nat × PSample) (l : List (List Nat × PSample)) :
    sampleSum (e :: l) = e.2.value + sampleSum l := by
  unfold sampleSum
  simp

theorem sampleSum_append_single (l : List (List Nat × PSample))
    (e : List Nat × PSample) :
    sampleSum (l ++ [e]) = sampleSum l + e.2.value := by
  unfold sampleSum
  simp

theorem bumpSample_sum :
    ∀ (ss : List (List Nat × PSample)) (k : List Nat) (c : Nat) (v : PSample),
      lookupKey ss k = some v →
      sampleSum (bumpSample ss k c) = sampleSum ss + (c : Int)
  | [], k, c, v => by
    intro h
    simp [lookupKey] at h
  | (k', s) :: rest, k, c, v => by
    intro h
    unfold bumpSample
    by_cases hk : k' = k
    · rw [if_pos hk, sampleSum_cons, sampleSum_cons]
      simp only []
      ring
    · rw [if_neg hk, sampleSum_cons, sampleSum_cons]
      unfold lookupKey at h
      rw [if_neg hk] at h
      rw [bumpSample_sum rest k c v h]
      ring

theorem finishSample_sum (env : Env) (st : LoopState) (t : CountTuple)
    (u k : List Nat) :
    sampleSum (finishSample env st t u k).samples =
      sampleSum st.samples + (t.count : Int) := by
  unfold finishSample
  cases e : lookupKey st.samples (u ++ k)
  · simp only [e]
    rw [(internUserAddrs_pres env t.pid u _).1, (internKernelAddrs_pres k st).1,
      sampleSum_append_single]
  · simp only [e]
    exact bumpSample_sum st.samples (u ++ k) t.count _ e

theorem totalCount_cons (t : CountTuple) (ts : List CountTuple) :
    totalCount (t :: ts) = t.count + totalCount ts := by
  unfold totalCount
  simp

theorem droppedUserSum_cons_true (env : Env) (t : CountTuple)
    (ts : List CountTuple) (h : userDropped env t = true) :
    droppedUserSum env (t :: ts) = t.count + droppedUserSum env ts := by
  unfold droppedUserSum
  rw [List.filter_cons]
  simp [h]

theorem droppedUserSum_cons_false (env : Env) (t : CountTuple)
    (ts : List CountTuple) (h : userDropped env t = false) :
    droppedUserSum env (t :: ts) = droppedUserSum env ts := by
  unfold droppedUserSum
  rw [List.filter_cons]
  simp [h]

theorem droppedKernelSum_cons_true (env : Env) (t : CountTuple)
    (ts : List CountTuple) (h : kernelDropped env t = true) :
    droppedKernelSum env (t :: ts) = t.count + droppedKernelSum env ts := by
  unfold droppedKernelSum
  rw [List.filter_cons]
  simp [h]

theorem droppedKernelSum_cons_false (env : Env) (t : CountTuple)
    (ts : List CountTuple) (h : kernelDropped env t = false) :
    droppedKernelSum env (t :: ts) = droppedKernelSum env ts := by
  unfold droppedKernelSum
  rw [List.filter_cons]
  simp [h]

theorem drainTuples_sum (env : Env) :
    ∀ (ts : List CountTuple) (st st' : LoopState),
      drainTuples env st ts = .ok st' →
      sampleSum st'.samples + (droppedUserSum env ts : Int) +
        (droppedKernelSum env ts : Int) =
      sampleSum st.samples + (totalCount ts : Int)
  | [], st, st' => by
    intro h
    rw [drainTuples_nil] at h
    injection h with h
    subst h
    simp [droppedUserSum, droppedKernelSum, totalCount]
  | t :: ts, st, st' => by
    intro h
    cases e : env.stackTraces t.userStackID
    · rw [drainTuples_cons_ok env st t ts _ (processTuple_user_miss env st t e)]
        at h
      have ih := drainTuples_sum env ts _ st' h
      dsimp only at ih
      have h1 : userDropped env t = true := by simp [userDropped, e]
      have h2 : kernelDropped env t = false := by simp [kernelDropped, e]
      rw [droppedUserSum_cons_true env t ts h1,
        droppedKernelSum_cons_false env t ts h2, totalCount_cons]
      push_cast
      linarith [ih]
    · rename_i us
      by_cases hl : stackDepth ≤ us.length
      · have h1 : userDropped env t = false := by simp [userDropped, e]
        by_cases hk : 0 ≤ t.kernelStackID
        · cases e2 : env.stackTraces t.kernelStackID
          · rw [drainTuples_cons_ok env st t ts _
              (processTuple_kernel_miss env st t us e hl hk e2)] at h
            have ih := drainTuples_sum env ts _ st' h
            dsimp only at ih
            have h2 : kernelDropped env t = true := by
              simp [kernelDropped, e, e2, hl, hk]
            rw [droppedUserSum_cons_false env t ts h1,
              droppedKernelSum_cons_true env t ts h2, totalCount_cons]
            push_cast
            linarith [ih]
          · rename_i ks
            by_cases hkl : stackDepth ≤ ks.length
            · rw [drainTuples_cons_ok env st t ts _
                (processTuple_full env st t us ks e hl hk e2 hkl)] at h
              have ih := drainTuples_sum env ts _ st' h
              rw [finishSample_sum env st t _ _] at ih
              have h2 : kernelDropped env t = false := by
                simp [kernelDropped, e, e2]
              rw [droppedUserSum_cons_false env t ts h1,
                droppedKernelSum_cons_false env t ts h2, totalCount_cons]
              push_cast
              linarith [ih]
            · rw [drainTuples_cons_err env st t ts _
                (processTuple_kernel_short env st t us ks e hl hk e2 hkl)] at h
              exact Except.noConfusion h
        · rw [drainTuples_cons_ok env st t ts _
            (processTuple_no_kernel env st t us e hl hk)] at h
          have ih := drainTuples_sum env ts _ st' h
          rw [finishSample_sum env st t _ _] at ih
          have h2 : kernelDropped env t = false := by
            simp [kernelDropped, e, hk]
          rw [droppedUserSum_cons_false env t ts h1,
            droppedKernelSum_cons_false env t ts h2, totalCount_cons]
          push_cast
          linarith [ih]
      · rw [drainTuples_cons_err env st t ts _
          (processTuple_user_short env st t us e hl)] at h
        exact Except.noConfusion h

/-- Location IDs are 1..len in construction order (each fresh location
gets `id = len(locations)+1` and is appended). -/
def IdsOk (locs : List Location) : Prop :=
  locs.map (·.id) = List.range' 1 locs.length

theorem IdsOk_nil : IdsOk [] := rfl

theorem IdsOk_append (locs : List Location) (x : Location) (h : IdsOk locs)
    (hx : x.id = locs.length + 1) : IdsOk (locs ++ [x]) := by
  unfold IdsOk at h ⊢
  rw [List.map_append, h, List.length_append]
  simp only [List.map_cons, List.map_nil, List.length_cons, List.length_nil]
  rw [hx, List.range'_concat]
  simp [Nat.add_comm]

theorem internKernelLoc_ids (st : LoopState) (a : Nat)
    (h : IdsOk st.locations) : IdsOk (internKernelLoc st a).1.locations := by
  unfold internKernelLoc
  cases e : lookupKey st.locationIndices (0, a)
  · simp only [e]
    exact IdsOk_append st.locations _ h rfl
  · simp only [e]
    exact h

theorem internUserLoc_ids (env : Env) (pid : Nat) (st : LoopState) (a : Nat)
    (h : IdsOk st.locations) :
    IdsOk (internUserLoc env pid st a).1.locations := by
  unfold internUserLoc
  cases e : lookupKey st.locationIndices (pid, a)
  · simp only [e]
    exact IdsOk_append st.locations _ h rfl
  · simp only [e]
    exact h

theorem internKernelAddrs_ids :
    ∀ (addrs : List Nat) (st : LoopState), IdsOk st.locations →
      IdsOk (internKernelAddrs st addrs).1.locations
  | [], _ => fun h => h
  | a :: rest, st => by
    intro h
    unfold internKernelAddrs
    by_cases ha : a = 0
    · simp only [ha, ne_eq, not_true_eq_false, if_false]
      exact internKernelAddrs_ids rest st h
    · simp only [ne_eq, ha, not_false_eq_true, if_true]
      exact internKernelAddrs_ids rest _ (internKernelLoc_ids st a h)

theorem internUserAddrs_ids (env : Env) (pid : Nat) :
    ∀ (addrs : List Nat) (st : LoopState), IdsOk st.locations →
      IdsOk (internUserAddrs env pid st addrs).1.locations
  | [], _ => fun h => h
  | a :: rest, st => by
    intro h
    unfold internUserAddrs
    by_cases ha : a = 0
    · simp only [ha, ne_eq, not_true_eq_false, if_false]
      exact internUserAddrs_ids env pid rest st h
    · simp only [ne_eq, ha, not_false_eq_true, if_true]
      exact internUserAddrs_ids env pid rest _ (internUserLoc_ids env pid st a h)

theorem finishSample_ids (env : Env) (st : LoopState) (t : CountTuple)
    (u k : List Nat) (h : IdsOk st.locations) :
    IdsOk (finishSample env st t u k).locations := by
  unfold finishSample
  cases e : lookupKey st.samples (u ++ k)
  · simp only [e]
    exact internUserAddrs_ids env t.pid u _ (internKernelAddrs_ids k st h)
  · simp only [e]
    exact h

theorem processTuple_ids (env : Env) (st : LoopState) (t : CountTuple)
    (st' : LoopState) (h : processTuple env st t = .ok st')
    (hids : IdsOk st.locations) : IdsOk st'.locations := by
  cases e : env.stackTraces t.userStackID
  · rw [processTuple_user_miss env st t e] at h
    injection h with h
    subst h
    exact hids
  · rename_i us
    by_cases hl : stackDepth ≤ us.length
    · by_cases hk : 0 ≤ t.kernelStackID
      · cases e2 : env.stackTraces t.kernelStackID
        · rw [processTuple_kernel_miss env st t us e hl hk e2] at h
          injection h with h
          subst h
          exact hids
        · rename_i ks
          by_cases hkl : stackDepth ≤ ks.length
          · rw [processTuple_full env st t us ks e hl hk e2 hkl] at h
            injection h with h
            subst h
            exact finishSample_ids env st t _ _ hids
          · rw [processTuple_kernel_short env st t us ks e hl hk e2 hkl] at h
            exact Except.noConfusion h
      · rw [processTuple_no_kernel env st t us e hl hk] at h
        injection h with h
        subst h
        exact finishSample_ids env st t _ _ hids
    · rw [processTuple_user_short env st t us e hl] at h
      exact Except.noConfusion h

theorem drainTuples_ids (env : Env) :
    ∀ (ts : List CountTuple) (st st' : LoopState),
      drainTuples env st ts = .ok st' → IdsOk st.locations →
      IdsOk st'.locations
  | [], st, st' => by
    intro h hids
    rw [drainTuples_nil] at h
    injection h with h
    subst h
    exact hids
  | t :: ts, st, st' => by
    intro h hids
    cases em : processTuple env st t
    · rw [drainTuples_cons_err env st t ts _ em] at h
      exact Except.noConfusion h
    · rename_i st2
      rw [drainTuples_cons_ok env st t ts st2 em] at h
      exact drainTuples_ids env ts st2 st' h (processTuple_ids env st t st2 em hids)

theorem numberFunctions_ids (b : Bool) :
    ∀ (ns : List String) (s : Nat),
      (numberFunctions s b ns).map (·.id) = List.range' s ns.length
  | [], _ => rfl
  | n :: rest, s => by
    unfold numberFunctions
    simp only [List.length_cons]
    rw [List.range'_succ, List.map_cons, numberFunctions_ids b rest (s + 1)]

theorem numberFunctions_length (b : Bool) :
    ∀ (ns : List String) (s : Nat), (numberFunctions s b ns).length = ns.length
  | [], _ => rfl
  | _ :: rest, s => by
    unfold numberFunctions
    simp only [List.length_cons, numberFunctions_length b rest (s + 1)]

theorem numberFunctions_isKernel (b : Bool) :
    ∀ (ns : List String) (s : Nat) (f : ProfFunction),
      f ∈ numberFunctions s b ns → f.isKernel = b
  | [], _, f => by
    intro hf
    cases hf
  | n :: rest, s, f => by
    intro hf
    unfold numberFunctions at hf
    rcases List.mem_cons.mp hf with h | h
    · subst h
      rfl
    · exact numberFunctions_isKernel b rest (s + 1) f h

theorem numberMappings_ids :
    ∀ (fs : List String) (s : Nat),
      (numberMappings s fs).map (·.id) = List.range' s fs.length
  | [], _ => rfl
  | f :: rest, s => by
    unfold numberMappings
    simp only [List.length_cons]
    rw [List.range'_succ, List.map_cons, numberMappings_ids rest (s + 1)]

theorem numberMappings_length :
    ∀ (fs : List String) (s : Nat), (numberMappings s fs).length = fs.length
  | [], _ => rfl
  | _ :: rest, s => by
    unfold numberMappings
    simp only [List.length_cons, numberMappings_length rest (s + 1)]

/-- C4: in every cycle's output profile, location IDs are exactly
1..len(locations) in construction order, function IDs are exactly
1..len(functions) with all kernel functions numbered before all user
functions, mapping IDs are exactly 1..len(mappings) (no collisions), and
the `[kernel.kallsyms]` sentinel mapping is the last mapping and carries
the largest mapping ID. -/
theorem c4_profile_ids (env : Env) (ts : List CountTuple) (st : LoopState)
    (files : List String) (ksym : Nat → Option String)
    (hd : drainTuples env initState ts = .ok st) :
    (buildProfile st files ksym).locations.map (·.id) =
      List.range' 1 (buildProfile st files ksym).locations.length ∧
    (buildProfile st files ksym).functions.map (·.id) =
      List.range' 1 (buildProfile st files ksym).functions.length ∧
    (buildProfile st files ksym).functions.filter (·.isKernel) ++
      (buildProfile st files ksym).functions.filter (fun f => !f.isKernel) =
      (buildProfile st files ksym).functions ∧
    (buildProfile st files ksym).mappings.map (·.id) =
      List.range' 1 (buildProfile st files ksym).mappings.length ∧
    (buildProfile st files ksym).mappings.getLast? =
      some ⟨(buildProfile st files ksym).mappings.length, kernelMappingFile⟩ := by
  have hids := drainTuples_ids env ts initState st hd IdsOk_nil
  unfold IdsOk at hids
  have hlocs : (buildProfile st files ksym).locations =
      st.locations.map (fun l =>
        if l.isKernel then
          { l with line := some (kernelSymbolName ksym l.address) }
        else l) := rfl
  have hfns : (buildProfile st files ksym).functions =
      numberFunctions 1 true
          ((addKernelFunctions ksym [] st.kernelLocations).map (·.2)) ++
        numberFunctions
          ((numberFunctions 1 true
            ((addKernelFunctions ksym [] st.kernelLocations).map (·.2))).length + 1)
          false (st.userFunctions.map (·.2)) := rfl
  have hmaps : (buildProfile st files ksym).mappings =
      numberMappings 1 files ++
        [⟨(numberMappings 1 files).length + 1, kernelMappingFile⟩] := rfl
  refine ⟨?_, ?_, ?_, ?_, ?_⟩
  · rw [hlocs, List.map_map, List.length_map]
    have hc : st.locations.map ((fun l : Location => l.id) ∘ (fun l =>
        if l.isKernel then
          { l with line := some (kernelSymbolName ksym l.address) }
        else l)) = st.locations.map (·.id) :=
      List.map_congr_left (fun l _ => by
        by_cases h : l.isKernel <;> simp [h])
    rw [hc]
    exact hids
  · rw [hfns, List.map_append, numberFunctions_ids, numberFunctions_ids,
      List.length_append, numberFunctions_length, numberFunctions_length]
    have h := List.range'_append_1 1
      ((addKernelFunctions ksym [] st.kernelLocations).map (·.2)).length
      (st.userFunctions.map (·.2)).length
    rw [Nat.add_comm 1
      ((addKernelFunctions ksym [] st.kernelLocations).map (·.2)).length] at h
    rw [h, Nat.add_comm (st.userFunctions.map (·.2)).length
      ((addKernelFunctions ksym [] st.kernelLocations).map (·.2)).length]
  · rw [hfns, List.filter_append, List.filter_append]
    have hA : (numberFunctions 1 true
        ((addKernelFunctions ksym [] st.kernelLocations).map (·.2))).filter
          (fun f => f.isKernel) =
        numberFunctions 1 true
          ((addKernelFunctions ksym [] st.kernelLocations).map (·.2)) :=
      List.filter_eq_self.mpr (fun f hf => by
        rw [numberFunctions_isKernel true _ 1 f hf])
    have hA2 : (numberFunctions 1 true
        ((addKernelFunctions ksym [] st.kernelLocations).map (·.2))).filter
          (fun f => !f.isKernel) = [] :=
      List.filter_eq_nil_iff.mpr (fun f hf => by
        rw [numberFunctions_isKernel true _ 1 f hf]
        simp)
    have hB : (numberFunctions ((numberFunctions 1 true
        ((addKernelFunctions ksym [] st.kernelLocations).map (·.2))).length + 1)
          false (st.userFunctions.map (·.2))).filter (fun f => f.isKernel) = [] :=
      List.filter_eq_nil_iff.mpr (fun f hf => by
        rw [numberFunctions_isKernel false _ _ f hf]
        simp)
    have hB2 : (numberFunctions ((numberFunctions 1 true
        ((addKernelFunctions ksym [] st.kernelLocations).map (·.2))).length + 1)
          false (st.userFunctions.map (·.2))).filter (fun f => !f.isKernel) =
        numberFunctions ((numberFunctions 1 true
          ((addKernelFunctions ksym [] st.kernelLocations).map (·.2))).length + 1)
          false (st.userFunctions.map (·.2)) :=
      List.filter_eq_self.mpr (fun f hf => by
        rw [numberFunctions_isKernel false _ _ f hf]
        simp)
    rw [hA, hA2, hB, hB2, List.append_nil, List.nil_append]
  · rw [hmaps, List.map_append, numberMappings_ids, List.length_append,
      numberMappings_length]
    simp only [List.map_cons, List.map_nil, List.length_cons, List.length_nil]
    rw [List.range'_concat]
    simp [Nat.add_comm, numberMappings_length]
  · rw [hmaps, List.getLast?_concat, List.length_append, numberMappings_length]
    simp [numberMappings_length]

def c4Env : Env :=
  ⟨fun sid => if sid = 3 then some uStackA else
      if sid = 4 then some kStackA else none,
    fun _ a => a,
    fun p a => if p = 7 ∧ a = 4096 then some "jit" else none⟩

def c4Ksym : Nat → Option String :=
  fun a => if a = 8192 then some "kfn" else none

def c4St : LoopState :=
  match drainTuples c4Env initState [⟨7, 3, 4, 2⟩] with
  | .ok st => st
  | .error _ => initState

set_option maxRecDepth 8000 in
theorem c4_profile_ids_witness :
    (buildProfile c4St ["libc.so"] c4Ksym).locations.map (·.id) =
      List.range' 1 (buildProfile c4St ["libc.so"] c4Ksym).locations.length ∧
    (buildProfile c4St ["libc.so"] c4Ksym).functions.map (·.id) =
      List.range' 1 (buildProfile c4St ["libc.so"] c4Ksym).functions.length ∧
    (buildProfile c4St ["libc.so"] c4Ksym).functions.filter (·.isKernel) ++
      (buildProfile c4St ["libc.so"] c4Ksym).functions.filter
        (fun f => !f.isKernel) =
      (buildProfile c4St ["libc.so"] c4Ksym).functions ∧
    (buildProfile c4St ["libc.so"] c4Ksym).mappings.map (·.id) =
      List.range' 1 (buildProfile c4St ["libc.so"] c4Ksym).mappings.length ∧
    (buildProfile c4St ["libc.so"] c4Ksym).mappings.getLast? =
      some ⟨(buildProfile c4St ["libc.so"] c4Ksym).mappings.length,
        kernelMappingFile⟩ :=
  c4_profile_ids c4Env [⟨7, 3, 4, 2⟩] c4St ["libc.so"] c4Ksym rfl

def c1Env : Env := ⟨fun _ => none, fun _ a => a, fun _ _ => none⟩

def c1Tuples : List CountTuple := [⟨1, 42, -1, 3⟩]

def c1St : LoopState := { initState with droppedUser := 1 }

/-- C1 counterexample: a single drained tuple of count 3 whose user
stack is missing.  The cycle produces no sample and increments the
missing-stacks counter once, so sample sum + counter increments = 1
while the drained count sum is 3: the claim's balance fails. -/
theorem c1_counterexample :
    drainTuples c1Env initState c1Tuples = .ok c1St ∧
    ¬ (((buildProfile c1St [] (fun _ => none)).samples.map (·.value)).sum +
        (c1St.droppedUser : Int) + (c1St.droppedKernel : Int) =
        (totalCount c1Tuples : Int)) :=
  ⟨rfl, by decide⟩

/-- C1 amended: per cycle, the sum of `value[0]` over the produced
profile's samples, plus the sum of the counts of the tuples dropped for a
missing user stack, plus the sum of the counts of the tuples dropped for
a missing kernel stack, equals the sum of the counts of all drained
tuples. -/
theorem c1_amended_balance (env : Env) (ts : List CountTuple) (st : LoopState)
    (files : List String) (ksym : Nat → Option String)
    (hd : drainTuples env initState ts = .ok st) :
    ((buildProfile st files ksym).samples.map (·.value)).sum +
      (droppedUserSum env ts : Int) + (droppedKernelSum env ts : Int) =
      (totalCount ts : Int) := by
  have h := drainTuples_sum env ts initState st hd
  have h0 : sampleSum initState.samples = 0 := rfl
  rw [h0] at h
  have hbp : ((buildProfile st files ksym).samples.map (·.value)).sum =
      sampleSum st.samples := by
    simp [buildProfile, sampleSum, List.map_map]
    rfl
  rw [hbp]
  linarith [h]

def c1WEnv : Env :=
  ⟨fun sid => if sid = 5 then some uStackA else none, fun _ a => a,
    fun _ _ => none⟩

def c1WTuples : List CountTuple := [⟨1, 5, -1, 3⟩, ⟨2, 9, -1, 4⟩]

def c1WSt : LoopState :=
  match drainTuples c1WEnv initState c1WTuples with
  | .ok st => st
  | .error _ => initState

set_option maxRecDepth 8000 in
theorem c1_amended_balance_witness :
    ((buildProfile c1WSt [] (fun _ => none)).samples.map (·.value)).sum +
      (droppedUserSum c1WEnv c1WTuples : Int) +
      (droppedKernelSum c1WEnv c1WTuples : Int) =
      (totalCount c1WTuples : Int) :=
  c1_amended_balance c1WEnv c1WTuples c1WSt [] (fun _ => none) rfl

def c5Env : Env :=
  ⟨fun sid => if sid = 3 then some uStackA else none, fun _ a => a,
    fun _ _ => none⟩

def c5EnvB : Env :=
  ⟨fun sid => if sid = 3 then some uStackA else some kStackA, fun _ a => a,
    fun _ _ => none⟩

def c5St : LoopState :=
  match processTuple c5Env initState ⟨7, 3, -1, 5⟩ with
  | .ok s => s
  | .error _ => initState

set_option maxRecDepth 8000 in
theorem c5_negative_kernel_sid_witness :
    processTuple c5EnvB initState ⟨7, 3, -1, 5⟩ = .ok c5St ∧
    processTuple c5Env initState ⟨7, 3, -1, 5⟩ =
      .ok (finishSample c5Env initState ⟨7, 3, -1, 5⟩ (uStackA.take stackDepth)
            (List.replicate stackDepth 0)) ∧
    c5St.kernelLocations = initState.kernelLocations ∧
    c5St.kernelAddresses = initState.kernelAddresses ∧
    (∀ l ∈ c5St.locations, l ∈ initState.locations ∨ l.isKernel = false) ∧
    (∀ k ∈ c5St.samples.map (·.1),
      k ∈ initState.samples.map (·.1) ∨
        k.drop stackDepth = List.replicate stackDepth 0) :=
  c5_negative_kernel_sid c5Env c5EnvB initState c5St ⟨7, 3, -1, 5⟩ uStackA
    (by decide) rfl (by decide) rfl (fun _ => rfl) (fun _ => rfl) rfl

def c6Env : Env := ⟨fun _ => none, fun _ a => a, fun _ _ => none⟩

theorem c6_missing_user_stack_witness :
    processTuple c6Env initState ⟨5, 42, -1, 3⟩ =
      .ok { initState with droppedUser := initState.droppedUser + 1 } ∧
    drainTuples c6Env initState [⟨5, 42, -1, 3⟩] =
      drainTuples c6Env { initState with droppedUser := initState.droppedUser + 1 } [] :=
  c6_missing_user_stack c6Env initState ⟨5, 42, -1, 3⟩ [] rfl

/-- C9: a profile-upload failure does not fail the cycle: whatever the
sendProfile outcome, profileLoop still cleans the sampler maps and
returns successfully, so the tick records `last_error = none` and still
updates `last_profile_taken_at` to the capture time. -/
theorem c9_send_failure_ignored {K V : Type} [DecidableEq K] (env : Env)
    (ts : List CountTuple) (files : List String) (ksym : Nat → Option String)
    (sendErr : Option String) (maps : BpfMapsM K V) (delOk : K → Bool)
    (captureTime : Nat) (st : LoopState)
    (hd : drainTuples env initState ts = .ok st) :
    profileLoop env ts files none ksym sendErr maps delOk =
      .ok (buildProfile st files ksym, (clean delOk maps).1) ∧
    profileLoop env ts files none ksym sendErr maps delOk =
      profileLoop env ts files none ksym none maps delOk ∧
    runTick env ts files none ksym sendErr maps delOk captureTime =
      (⟨captureTime, none⟩,
        some (buildProfile st files ksym, (clean delOk maps).1)) := by
  have hgen : ∀ se : Option String,
      profileLoop env ts files none ksym se maps delOk =
        .ok (buildProfile st files ksym, (clean delOk maps).1) := by
    intro se
    unfold profileLoop
    rw [hd]
  refine ⟨hgen sendErr, (hgen sendErr).trans (hgen none).symm, ?_⟩
  unfold runTick
  rw [hgen sendErr]

def c9Maps : BpfMapsM Nat Nat := ⟨[(1, 10)], [(2, 20)]⟩

theorem c9_send_failure_ignored_witness :
    profileLoop c6Env [] [] none (fun _ => none) (some "upload failed")
      c9Maps (fun _ => true) =
      .ok (buildProfile initState [] (fun _ => none),
        (clean (fun _ => true) c9Maps).1) ∧
    profileLoop c6Env [] [] none (fun _ => none) (some "upload failed")
      c9Maps (fun _ => true) =
      profileLoop c6Env [] [] none (fun _ => none) none c9Maps
        (fun _ => true) ∧
    runTick c6Env [] [] none (fun _ => none) (some "upload failed") c9Maps
      (fun _ => true) 99 =
      (⟨99, none⟩, some (buildProfile initState [] (fun _ => none),
        (clean (fun _ => true) c9Maps).1)) :=
  c9_send_failure_ignored c6Env [] [] (fun _ => none) (some "upload failed")
    c9Maps (fun _ => true) 99 initState rfl

end Parca
